import Mathlib

/-!
Verification of the WhatPulse weekly delta pipeline
(`src/whatpulse/build-whatpulse.ts`, `src/whatpulse/build-weekly.ts`).

The definitions below are a shallow embedding of the TypeScript source:
JSON documents become an inductive type, JavaScript numbers that pass
`Number.isFinite` become `Int` (the counters are integral), stateful
file access becomes explicit state passing, and fatal `throw`s become
`Except`.
-/

namespace WhatPulse

/-- Mirrors JavaScript `s.includes(pat)` on char lists: `charsPrefix n h`
is true when `n` is a prefix of `h`. -/
def charsPrefix : List Char → List Char → Bool
  | [], _ => true
  | _ :: _, [] => false
  | a :: as, b :: bs => a == b && charsPrefix as bs

/-- `charsInfix n h` is true when `n` occurs contiguously inside `h`
(the empty needle always matches). -/
def charsInfix (needle : List Char) : List Char → Bool
  | [] => charsPrefix needle []
  | b :: bs => charsPrefix needle (b :: bs) || charsInfix needle bs

/-- JavaScript `s.includes(pat)`. -/
def strIncludes (s pat : String) : Bool :=
  charsInfix pat.data s.data

/-- JavaScript `s.toLowerCase()` (ASCII case fold suffices here). -/
def jsToLower (s : String) : String :=
  String.mk (s.data.map Char.toLower)

/-- JavaScript `s.replace(/\s+/g, '')`: drop all whitespace. -/
def stripWs (s : String) : String :=
  String.mk (s.data.filter (fun c => !c.isWhitespace))

/-- JavaScript `path.split('/').pop() ?? ''`: the final slash-delimited
segment (the whole string when there is no slash, empty for `''`). -/
def lastSeg (s : String) : String :=
  String.mk ((s.data.reverse.takeWhile (fun c => c != '/')).reverse)

mutual

/-- A JSON value as the Locator traverses it.  `jnonfinite` stands for a
JavaScript number that fails `Number.isFinite` (NaN / ±Infinity);
`jnull` also covers `undefined` (the source treats both alike).
Arrays and objects use bespoke list types so that all recursion below
is structural. -/
inductive Json where
  | jnull
  | jbool (b : Bool)
  | jnum (x : Int)
  | jnonfinite
  | jstr (s : String)
  | jarr (items : JsonList)
  | jobj (fields : JsonFields)

inductive JsonList where
  | nil
  | cons (hd : Json) (tl : JsonList)

inductive JsonFields where
  | nil
  | cons (key : String) (val : Json) (tl : JsonFields)

end

/-- Build a `JsonList` from a plain list (for writing concrete documents). -/
def JsonList.ofList : List Json → JsonList
  | [] => .nil
  | j :: js => .cons j (JsonList.ofList js)

/-- Build `JsonFields` from a plain association list. -/
def JsonFields.ofList : List (String × Json) → JsonFields
  | [] => .nil
  | (k, v) :: rest => .cons k v (JsonFields.ofList rest)

/-- The four semantic field classes of `build-whatpulse.ts`. -/
inductive NumericField where
  | keys
  | clicks
  | scrolls
  | uptimeSeconds
deriving DecidableEq

/-- `FIELD_PATTERNS` from `build-whatpulse.ts`. -/
def FIELD_PATTERNS : NumericField → List String
  | .keys => ["keys", "keycount", "keystrokes"]
  | .clicks => ["clicks", "mouseclicks"]
  | .scrolls => ["scrolls", "scrollcount", "mousescrolls"]
  | .uptimeSeconds => ["uptime", "uptimeseconds", "seconds"]

/-- `TOTALS_PATH_HINTS` from `build-whatpulse.ts`. -/
def TOTALS_PATH_HINTS : List String := ["totals", "total", "accounttotals"]

/-- `UNPULSED_PATH_HINTS` from `build-whatpulse.ts`. -/
def UNPULSED_PATH_HINTS : List String := ["unpulsed", "unpulse", "pending"]

/-- The section tag of a candidate (`'totals' | 'unpulsed' | 'none'`). -/
inductive Section where
  | totals
  | unpulsed
  | none
deriving DecidableEq

/-- A requested section (`'totals' | 'unpulsed'`), the second argument
of `pickBest` and `extractSection`. -/
inductive Sect2 where
  | totals
  | unpulsed
deriving DecidableEq

/-- The `Candidate` interface of `build-whatpulse.ts` (`section` is a
Lean keyword, so the field is called `sectionTag`). -/
structure Candidate where
  value : Int
  path : String
  pathLower : String
  sectionTag : Section
deriving DecidableEq

/-- `pathScore` from `build-whatpulse.ts`: +10 per hint that occurs as a
substring of the lower-cased path. -/
def pathScore (pathLower : String) (hints : List String) : Nat :=
  hints.foldl (fun score h => if strIncludes pathLower h then score + 10 else score) 0

/-- The section-tagging expression inside `collectCandidates`
(`build-whatpulse.ts` lines 69–73). -/
def sectionOf (pathLower : String) : Section :=
  if strIncludes pathLower "unpulse" || strIncludes pathLower "pending" then Section.unpulsed
  else if strIncludes pathLower "total" then Section.totals
  else Section.none

/-- The key-pattern test inside `collectCandidates` (line 67–68): the
last path segment, lower-cased and stripped of whitespace, must contain
or be contained by one of the patterns. -/
def keyMatches (patterns : List String) (path : String) : Bool :=
  let key := stripWs (jsToLower (lastSeg path))
  patterns.any (fun p => strIncludes key p || strIncludes p key)

mutual

/-- `collectCandidates` from `build-whatpulse.ts`.  The accumulator of
the source becomes the returned list (same order).  The unused `field`
parameter of the source is kept.  `collectArr` unrolls the
`obj.forEach((item, i) => ...)` loop (note the source extends `path`
with the index but leaves `pathLower` untouched for arrays), and
`collectObj` the `Object.entries` loop. -/
def collectCandidates (j : Json) (path pathLower : String) (field : NumericField)
    (patterns : List String) : List Candidate :=
  match j with
  | .jnull => []
  | .jbool _ => []
  | .jstr _ => []
  | .jnonfinite => []
  | .jnum x =>
    if keyMatches patterns path then
      [⟨x, path, pathLower, sectionOf pathLower⟩]
    else []
  | .jarr items => collectArr items 0 path pathLower field patterns
  | .jobj fields => collectObj fields path pathLower field patterns

def collectArr (items : JsonList) (i : Nat) (path pathLower : String)
    (field : NumericField) (patterns : List String) : List Candidate :=
  match items with
  | .nil => []
  | .cons item rest =>
    collectCandidates item (path ++ "/" ++ toString i) pathLower field patterns ++
      collectArr rest (i + 1) path pathLower field patterns

def collectObj (fields : JsonFields) (path pathLower : String)
    (field : NumericField) (patterns : List String) : List Candidate :=
  match fields with
  | .nil => []
  | .cons k v rest =>
    collectCandidates v (if path == "" then k else path ++ "/" ++ k)
        (stripWs (pathLower ++ "/" ++ jsToLower k)) field patterns ++
      collectObj rest path pathLower field patterns

end

mutual

/-- The finite numeric leaves of a document together with the `path`
and `pathLower` that the traversal of `collectCandidates` assigns them
(same traversal order; an observer used to state the Locator claims). -/
def numLeaves (j : Json) (path pathLower : String) : List (String × String × Int) :=
  match j with
  | .jnum x => [(path, pathLower, x)]
  | .jarr items => numLeavesArr items 0 path pathLower
  | .jobj fields => numLeavesObj fields path pathLower
  | _ => []

/-- Numeric leaves of an array's items, indexed from `i`. -/
def numLeavesArr (items : JsonList) (i : Nat) (path pathLower : String) :
    List (String × String × Int) :=
  match items with
  | .nil => []
  | .cons item rest =>
    numLeaves item (path ++ "/" ++ toString i) pathLower ++ numLeavesArr rest (i + 1) path pathLower

/-- Numeric leaves of an object's members. -/
def numLeavesObj (fields : JsonFields) (path pathLower : String) :
    List (String × String × Int) :=
  match fields with
  | .nil => []
  | .cons k v rest =>
    numLeaves v (if path == "" then k else path ++ "/" ++ k)
        (stripWs (pathLower ++ "/" ++ jsToLower k)) ++ numLeavesObj rest path pathLower

end

/-- The candidate that `collectCandidates` records for a numeric leaf,
when its key matches one of the patterns. -/
def candOf (patterns : List String) (t : String × String × Int) : Option Candidate :=
  if keyMatches patterns t.1 then some ⟨t.2.2, t.1, t.2.1, sectionOf t.2.1⟩ else Option.none

/-- Insert `x` into a list sorted descending by `f`, after every earlier
element of strictly higher score and before the rest (so equal scores
keep their original order, as the stable `Array.prototype.sort` does). -/
def insertByDesc (f : Candidate → Nat) (x : Candidate) : List Candidate → List Candidate
  | [] => [x]
  | y :: ys => if f x < f y then y :: insertByDesc f x ys else x :: y :: ys

/-- A stable descending sort by score `f`: the model of the JavaScript
`arr.sort((a, b) => f(b) - f(a))` calls in `pickBest`. -/
def sortByDesc (f : Candidate → Nat) : List Candidate → List Candidate
  | [] => []
  | x :: xs => insertByDesc f x (sortByDesc f xs)

/-- The hint list belonging to a requested section. -/
def hintsFor : Sect2 → List String
  | .totals => TOTALS_PATH_HINTS
  | .unpulsed => UNPULSED_PATH_HINTS

/-- `pickBest` from `build-whatpulse.ts` (lines 93–109).  When no
candidate carries the requested tag, the source computes
`any = candidates.filter(c => c.section === 'none')` but never uses it
(kept here as `_any`): the fallback sorts the WHOLE candidate list by
the requested section's own hint score and returns its head. -/
def pickBest (candidates : List Candidate) (sect : Sect2) : Option Candidate :=
  let filtered := candidates.filter fun c =>
    match sect with
    | .totals => decide (c.sectionTag = Section.totals)
    | .unpulsed => decide (c.sectionTag = Section.unpulsed)
  match filtered with
  | [] =>
    let _any := candidates.filter fun c => decide (c.sectionTag = Section.none)
    match sect with
    | .totals =>
      (sortByDesc (fun c => pathScore c.pathLower TOTALS_PATH_HINTS) candidates).head?
    | .unpulsed =>
      (sortByDesc (fun c => pathScore c.pathLower UNPULSED_PATH_HINTS) candidates).head?
  | _ =>
    (sortByDesc (fun c => pathScore c.pathLower (hintsFor sect)) filtered).head?

/-- The 4-field nullable counter record (`CounterSet` of the spec; the
result type of `extractSection`). -/
structure CounterSet where
  keys : Option Int
  clicks : Option Int
  scrolls : Option Int
  uptimeSeconds : Option Int
deriving DecidableEq

/-- `extractSection` from `build-whatpulse.ts` (lines 111–124): one
Locator run per field class, keeping the winning value or `null`. -/
def extractSection (data : Json) (sect : Sect2) : CounterSet where
  keys := (pickBest (collectCandidates data "" "" .keys (FIELD_PATTERNS .keys)) sect).map (·.value)
  clicks := (pickBest (collectCandidates data "" "" .clicks (FIELD_PATTERNS .clicks)) sect).map (·.value)
  scrolls := (pickBest (collectCandidates data "" "" .scrolls (FIELD_PATTERNS .scrolls)) sect).map (·.value)
  uptimeSeconds := (pickBest (collectCandidates data "" "" .uptimeSeconds (FIELD_PATTERNS .uptimeSeconds)) sect).map (·.value)

/-- JavaScript property access `obj[key]` on a parsed JSON object. -/
def lookupField (fields : JsonFields) (key : String) : Option Json :=
  match fields with
  | .nil => Option.none
  | .cons k v rest => if k == key then some v else lookupField rest key

/-- `parsed.data ?? parsed` from `build-whatpulse.ts` line 150: unwrap
the `data` member when present and not nullish, else use the document
itself. -/
def unwrapData (j : Json) : Json :=
  match j with
  | .jobj fields =>
    match lookupField fields "data" with
    | some Json.jnull => j
    | some v => v
    | Option.none => j
  | _ => j

/-- The `hasUnpulsed` test and `unpulsed` output field of the extractor
`main` (`build-whatpulse.ts` lines 154–159 and 177): the unpulsed
section collapses to null when all four of its fields are null. -/
def buildUnpulsed (data : Json) : Option CounterSet :=
  let u := extractSection data Sect2.unpulsed
  if u.keys.isSome || u.clicks.isSome || u.scrolls.isSome || u.uptimeSeconds.isSome then
    some u
  else Option.none

/-- The payload of end-to-end scenario A:
`{stats: {totals: {keys: 500, clicks: 300, scrolls: 10, uptime: 7200}}}`. -/
def scenarioAData : Json :=
  .jobj (JsonFields.ofList [("stats", .jobj (JsonFields.ofList
    [("totals", .jobj (JsonFields.ofList
      [("keys", .jnum 500), ("clicks", .jnum 300),
       ("scrolls", .jnum 10), ("uptime", .jnum 7200)]))]))])

/-- The raw capture of scenario A: `{data: <scenarioAData>}`. -/
def scenarioARaw : Json :=
  .jobj (JsonFields.ofList [("data", scenarioAData)])

/-- A small document used to instantiate the Locator theorems:
`{totals: {keys: 5}}`. -/
def exampleDoc : Json :=
  .jobj (JsonFields.ofList [("totals", .jobj (JsonFields.ofList [("keys", .jnum 5)]))])

end WhatPulse

namespace Weekly

/-- A JSON field value as `build-weekly.ts`'s `toNumber` sees it:
a finite number, a non-finite number, JSON null, or an absent /
non-numeric member (all but the first map to null). -/
inductive JsVal where
  | num (n : Int)
  | nonfinite
  | jnull
  | absent
deriving DecidableEq

/-- `toNumber` from `build-weekly.ts` (lines 23–26). -/
def toNumber : JsVal → Option Int
  | .num n => some n
  | _ => Option.none

/-- The fully-resolved `Counters` type of `build-weekly.ts` (line 8). -/
structure Counters where
  keys : Int
  clicks : Int
  scrolls : Int
  uptimeSeconds : Int
deriving DecidableEq

/-- A `Snapshot` ledger entry (`build-weekly.ts` lines 10–14). -/
structure Snapshot where
  capturedAt : String
  source : String
  counters : Counters
deriving DecidableEq

/-- One section of the parsed `api/whatpulse.json`
(`Partial<Record<keyof Counters, number | null>>`). -/
structure PartialCounters where
  keys : JsVal
  clicks : JsVal
  scrolls : JsVal
  uptimeSeconds : JsVal
deriving DecidableEq

/-- The parsed `api/whatpulse.json` as `build-weekly.ts` reads it
(`WhatPulseJson`, lines 16–21).  `Option.none` covers both an absent
member and an explicit null, which the source's `??` treats alike. -/
structure WhatPulseJson where
  totals : Option PartialCounters
  unpulsed : Option PartialCounters
deriving DecidableEq

/-- The `?? {}` default of `getCounters`: an object with no members. -/
def emptyPartial : PartialCounters := ⟨.absent, .absent, .absent, .absent⟩

/-- The body of `getCounters` after the preferred section is chosen:
all four fields through `toNumber`, or nothing if any is null. -/
def resolve (p : PartialCounters) : Option Counters :=
  match toNumber p.keys, toNumber p.clicks, toNumber p.scrolls, toNumber p.uptimeSeconds with
  | some k, some c, some s, some u => some ⟨k, c, s, u⟩
  | _, _, _, _ => Option.none

/-- The message of the `Error` thrown by `getCounters`. -/
def MISSING_MSG : String :=
  "api/whatpulse.json missing counters. Prefer unpulsed; fallback totals. Need keys, clicks, scrolls, uptimeSeconds."

/-- `getCounters` from `build-weekly.ts` (lines 28–40):
`prefer = api.unpulsed ?? api.totals ?? {}`, then the four fields must
all resolve or the run fails. -/
def getCounters (api : WhatPulseJson) : Except String Counters :=
  match resolve (api.unpulsed.getD (api.totals.getD emptyPartial)) with
  | some c => Except.ok c
  | Option.none => Except.error MISSING_MSG

/-- `delta` from `build-weekly.ts` (lines 42–49): per-field
`Math.max(0, current - prev)`. -/
def delta (prev current : Counters) : Counters where
  keys := max 0 (current.keys - prev.keys)
  clicks := max 0 (current.clicks - prev.clicks)
  scrolls := max 0 (current.scrolls - prev.scrolls)
  uptimeSeconds := max 0 (current.uptimeSeconds - prev.uptimeSeconds)

/-- The state of the ledger file
`raw-data/whatpulse-weekly-snapshots.json` before a run: missing,
unparseable, valid JSON that is not an array, or an array of
snapshots. -/
inductive LedgerFile where
  | missing
  | invalidJson
  | jsonNonArray
  | jsonArray (entries : List Snapshot)
deriving DecidableEq

/-- The ledger read of `build-weekly.ts` lines 82–89: every state but a
valid JSON array is treated as the empty ledger. -/
def readLedger : LedgerFile → List Snapshot
  | .jsonArray entries => entries
  | _ => []

/-- The fixed `source` tag of the weekly builder. -/
def SOURCE_TAG : String := "whatpulse-client-api"

/-- The `note` emitted when the ledger is too short. -/
def NO_HISTORY_NOTE : String :=
  "Not enough history yet. Run again next week to compute deltas."

/-- The `api/whatpulse-weekly.json` output record
(`build-weekly.ts` lines 101–108 and 120–127). -/
structure WeeklyOutput where
  updatedAt : String
  source : String
  window : String
  range : Option String
  counters : Option Counters
  note : Option String
deriving DecidableEq

/-- The effectful core of `main` in `build-weekly.ts` (lines 74–129)
with the clock (`capturedAt`) and the parsed api file passed in and the
ledger file state made explicit: extract counters (fatal on failure,
before any ledger access), append the snapshot, rewrite the ledger,
then emit the weekly record for the post-append ledger length. -/
def weeklyMain (api : WhatPulseJson) (capturedAt : String) (ledgerBefore : LedgerFile) :
    Except String (LedgerFile × WeeklyOutput) :=
  match getCounters api with
  | Except.error e => Except.error e
  | Except.ok counters =>
    let snapshot : Snapshot := ⟨capturedAt, SOURCE_TAG, counters⟩
    let snapshots := readLedger ledgerBefore ++ [snapshot]
    if snapshots.length < 2 then
      Except.ok (LedgerFile.jsonArray snapshots,
        ⟨capturedAt, SOURCE_TAG, "weekly", Option.none, Option.none, some NO_HISTORY_NOTE⟩)
    else
      let prev := snapshots.getD (snapshots.length - 2) snapshot
      let current := snapshots.getD (snapshots.length - 1) snapshot
      Except.ok (LedgerFile.jsonArray snapshots,
        ⟨capturedAt, SOURCE_TAG, "weekly",
          some (prev.capturedAt ++ "/" ++ current.capturedAt),
          some (delta prev.counters current.counters), Option.none⟩)

/-- A run of `build-weekly.ts` seen from the ledger file: on a fatal
error the process exits with the file untouched, otherwise the file
holds the appended array. -/
def runWeekly (api : WhatPulseJson) (capturedAt : String) (ledgerBefore : LedgerFile) :
    LedgerFile × Except String WeeklyOutput :=
  match weeklyMain api capturedAt ledgerBefore with
  | Except.error e => (ledgerBefore, Except.error e)
  | Except.ok (l, w) => (l, Except.ok w)

/-- JavaScript `s.trim()`. -/
def jsTrim (s : String) : String :=
  String.mk (((s.data.dropWhile Char.isWhitespace).reverse.dropWhile Char.isWhitespace).reverse)

/-- `safeSnippet` from the fetcher (`build-weekly` sibling script,
lines 146–150): trim, and when longer than `maxLen` keep the first
`maxLen` characters and append an ellipsis.  Every call site uses the
default `maxLen = 200`. -/
def safeSnippet (text : String) (maxLen : Nat) : String :=
  let s := jsTrim text
  if s.length ≤ maxLen then s else String.mk (s.data.take maxLen) ++ "..."

end Weekly

namespace WhatPulse

mutual

/-- `collectCandidates` is exactly the pattern-matching filter of the
document's finite numeric leaves. -/
theorem collect_eq : ∀ (j : Json) (path pl : String) (f : NumericField) (pats : List String),
    collectCandidates j path pl f pats = (numLeaves j path pl).filterMap (candOf pats)
  | .jnull, _, _, _, _ => rfl
  | .jbool _, _, _, _, _ => rfl
  | .jstr _, _, _, _, _ => rfl
  | .jnonfinite, _, _, _, _ => rfl
  | .jnum x, path, pl, f, pats => by
    simp only [collectCandidates, numLeaves, List.filterMap, candOf]
    by_cases h : keyMatches pats path <;> simp [h]
  | .jarr items, path, pl, f, pats => by
    simpa only [collectCandidates, numLeaves] using collectArr_eq items 0 path pl f pats
  | .jobj fields, path, pl, f, pats => by
    simpa only [collectCandidates, numLeaves] using collectObj_eq fields path pl f pats

/-- Array case of `collect_eq`. -/
theorem collectArr_eq : ∀ (items : JsonList) (i : Nat) (path pl : String) (f : NumericField)
      (pats : List String),
    collectArr items i path pl f pats = (numLeavesArr items i path pl).filterMap (candOf pats)
  | .nil, _, _, _, _, _ => rfl
  | .cons item rest, i, path, pl, f, pats => by
    simp only [collectArr, numLeavesArr, List.filterMap_append]
    rw [collect_eq item _ pl f pats, collectArr_eq rest (i + 1) path pl f pats]

/-- Object case of `collect_eq`. -/
theorem collectObj_eq : ∀ (fields : JsonFields) (path pl : String) (f : NumericField)
      (pats : List String),
    collectObj fields path pl f pats = (numLeavesObj fields path pl).filterMap (candOf pats)
  | .nil, _, _, _, _ => rfl
  | .cons k v rest, path, pl, f, pats => by
    simp only [collectObj, numLeavesObj, List.filterMap_append]
    rw [collect_eq v _ _ f pats, collectObj_eq rest path pl f pats]

end

/-- Membership through stable insertion. -/
theorem mem_insertByDesc (f : Candidate → Nat) (x y : Candidate) (l : List Candidate)
    (h : y ∈ insertByDesc f x l) : y = x ∨ y ∈ l := by
  induction l with
  | nil => simpa [insertByDesc] using h
  | cons z zs ih =>
    simp only [insertByDesc] at h
    split at h
    · rcases List.mem_cons.mp h with h | h
      · exact Or.inr (List.mem_cons.mpr (Or.inl h))
      · rcases ih h with h | h
        · exact Or.inl h
        · exact Or.inr (List.mem_cons.mpr (Or.inr h))
    · rcases List.mem_cons.mp h with h | h
      · exact Or.inl h
      · exact Or.inr h

/-- The stable sort keeps only list elements. -/
theorem mem_sortByDesc (f : Candidate → Nat) (c : Candidate) (l : List Candidate)
    (h : c ∈ sortByDesc f l) : c ∈ l := by
  induction l with
  | nil => simp [sortByDesc] at h
  | cons x xs ih =>
    simp only [sortByDesc] at h
    rcases mem_insertByDesc f x c (sortByDesc f xs) h with h | h
    · exact List.mem_cons.mpr (Or.inl h)
    · exact List.mem_cons.mpr (Or.inr (ih h))

/-- Insertion never yields the empty list. -/
theorem insertByDesc_ne_nil (f : Candidate → Nat) (x : Candidate) (l : List Candidate) :
    insertByDesc f x l ≠ [] := by
  cases l with
  | nil => simp [insertByDesc]
  | cons y ys =>
    simp only [insertByDesc]
    split <;> simp

/-- The stable sort is empty exactly on the empty list. -/
theorem sortByDesc_eq_nil_iff (f : Candidate → Nat) (l : List Candidate) :
    sortByDesc f l = [] ↔ l = [] := by
  cases l with
  | nil => simp [sortByDesc]
  | cons x xs =>
    simp only [sortByDesc]
    constructor
    · intro h
      exact absurd h (insertByDesc_ne_nil f x (sortByDesc f xs))
    · intro h
      cases h

/-- C7: for every JSON document and each of the 4 field classes, every
finite numeric leaf whose key (last path segment, lower-cased,
whitespace removed) contains or is contained by one of that class's
configured patterns appears in the candidate list produced for that
class, and every candidate is such a finite numeric leaf (so non-finite
numbers are never candidates). -/
theorem locator_substring_match (j : Json) (f : NumericField) :
    (∀ t ∈ numLeaves j "" "", keyMatches (FIELD_PATTERNS f) t.1 = true →
      (⟨t.2.2, t.1, t.2.1, sectionOf t.2.1⟩ : Candidate) ∈
        collectCandidates j "" "" f (FIELD_PATTERNS f)) ∧
    (∀ c ∈ collectCandidates j "" "" f (FIELD_PATTERNS f),
      (c.path, c.pathLower, c.value) ∈ numLeaves j "" "") ∧
    (∀ (path pl : String), collectCandidates Json.jnonfinite path pl f (FIELD_PATTERNS f) = []) := by
  rw [collect_eq]
  refine ⟨?_, ?_, fun _ _ => rfl⟩
  · intro t ht hmatch
    exact List.mem_filterMap.mpr ⟨t, ht, by simp [candOf, hmatch]⟩
  · intro c hc
    obtain ⟨t, ht, heq⟩ := List.mem_filterMap.mp hc
    unfold candOf at heq
    split at heq
    · cases heq
      simpa using ht
    · cases heq

/-- Witness for C7: in `{totals: {keys: 5}}` the leaf at path
`totals/keys` matches the `keys` patterns and is collected. -/
theorem locator_substring_match_witness :
    (("totals/keys", "/totals/keys", (5 : Int)) ∈ numLeaves exampleDoc "" "") ∧
    keyMatches (FIELD_PATTERNS NumericField.keys) "totals/keys" = true ∧
    (⟨5, "totals/keys", "/totals/keys", Section.totals⟩ : Candidate) ∈
      collectCandidates exampleDoc "" "" NumericField.keys (FIELD_PATTERNS NumericField.keys) :=
  ⟨by decide, by decide,
    (locator_substring_match exampleDoc NumericField.keys).1
      ("totals/keys", "/totals/keys", (5 : Int)) (by decide) (by decide)⟩

/-- C8: every candidate's section tag is determined by its lower-cased
path: `"unpulsed"` when it contains `"unpulse"` or `"pending"`, else
`"totals"` when it contains `"total"`, else `"none"`. -/
theorem section_tag_correct (j : Json) (path pl : String) (f : NumericField)
    (pats : List String) (c : Candidate) (h : c ∈ collectCandidates j path pl f pats) :
    c.sectionTag =
      (if strIncludes c.pathLower "unpulse" || strIncludes c.pathLower "pending" then
        Section.unpulsed
      else if strIncludes c.pathLower "total" then Section.totals
      else Section.none) := by
  rw [collect_eq] at h
  obtain ⟨t, ht, heq⟩ := List.mem_filterMap.mp h
  unfold candOf at heq
  split at heq
  · cases heq
    rfl
  · cases heq

/-- Witness for C8: the candidate collected from `{totals: {keys: 5}}`
carries the `totals` tag that its lower-cased path prescribes. -/
theorem section_tag_correct_witness :
    (⟨5, "totals/keys", "/totals/keys", Section.totals⟩ : Candidate) ∈
      collectCandidates exampleDoc "" "" NumericField.keys (FIELD_PATTERNS NumericField.keys) ∧
    (⟨5, "totals/keys", "/totals/keys", Section.totals⟩ : Candidate).sectionTag =
      (if strIncludes "/totals/keys" "unpulse" || strIncludes "/totals/keys" "pending" then
        Section.unpulsed
      else if strIncludes "/totals/keys" "total" then Section.totals
      else Section.none) :=
  ⟨by decide,
    section_tag_correct exampleDoc "" "" NumericField.keys (FIELD_PATTERNS NumericField.keys)
      ⟨5, "totals/keys", "/totals/keys", Section.totals⟩ (by decide)⟩

/-- C1: evaluating the extractor at scenario A's raw capture
`{data: {stats: {totals: {keys: 500, clicks: 300, scrolls: 10,
uptime: 7200}}}}`.  `totals` comes out as the claim states, but
`unpulsed` is NOT null: it repeats the totals values, because the
fallback branch of `pickBest` sorts the full candidate list (its
none-tag filter is computed but unused) and every field has a
candidate. -/
theorem scenarioA_eval :
    extractSection (unwrapData scenarioARaw) Sect2.totals =
      ⟨some 500, some 300, some 10, some 7200⟩ ∧
    buildUnpulsed (unwrapData scenarioARaw) =
      some ⟨some 500, some 300, some 10, some 7200⟩ := by
  decide

/-- C10: a document that is a bare finite number `n` resolves every
field of both sections to `n`, and the emitted `unpulsed` is non-null:
the leaf's key is the empty string, contained in every pattern, so the
leaf is a candidate for every field class and the fallback selects it
for both sections. -/
theorem bare_number_extraction (n : Int) :
    extractSection (unwrapData (Json.jnum n)) Sect2.totals = ⟨some n, some n, some n, some n⟩ ∧
    extractSection (unwrapData (Json.jnum n)) Sect2.unpulsed = ⟨some n, some n, some n, some n⟩ ∧
    buildUnpulsed (unwrapData (Json.jnum n)) = some ⟨some n, some n, some n, some n⟩ :=
  ⟨rfl, rfl, rfl⟩

/-- C2 counterexample: a candidate list whose only element is tagged
`unpulsed` contains no `totals`-tagged and no `none`-tagged candidate,
yet `pickBest` for the `totals` section returns that element — the
fallback does not select from the `"none"`-tagged candidates. -/
theorem pickBest_claim_cex :
    pickBest [⟨1, "unpulsed/keys", "/unpulsed/keys", Section.unpulsed⟩] Sect2.totals =
      some ⟨1, "unpulsed/keys", "/unpulsed/keys", Section.unpulsed⟩ ∧
    Section.unpulsed ≠ Section.none := by
  decide

/-- C2 amended: when no candidate carries the requested section tag,
`pickBest` stably sorts the ENTIRE candidate list by hint-substring
scoring against the REQUESTED section's own hint list and returns its
first element (a member of the list), and returns null exactly when
the candidate list is empty. -/
theorem pickBest_fallback (cs : List Candidate) (s : Sect2)
    (h : (cs.filter fun c =>
      match s with
      | .totals => decide (c.sectionTag = Section.totals)
      | .unpulsed => decide (c.sectionTag = Section.unpulsed)) = []) :
    pickBest cs s = (sortByDesc (fun c => pathScore c.pathLower (hintsFor s)) cs).head? ∧
    (pickBest cs s = Option.none ↔ cs = []) ∧
    (∀ c, pickBest cs s = some c → c ∈ cs) := by
  have hpick : pickBest cs s =
      (sortByDesc (fun c => pathScore c.pathLower (hintsFor s)) cs).head? := by
    cases s <;> simp [pickBest, h, hintsFor]
  refine ⟨hpick, ?_, ?_⟩
  · rw [hpick]
    constructor
    · intro hnone
      have : sortByDesc (fun c => pathScore c.pathLower (hintsFor s)) cs = [] := by
        cases hsort : sortByDesc (fun c => pathScore c.pathLower (hintsFor s)) cs with
        | nil => rfl
        | cons a l => rw [hsort] at hnone; cases hnone
      exact (sortByDesc_eq_nil_iff _ cs).mp this
    · intro hcs
      subst hcs
      rfl
  · intro c hc
    rw [hpick] at hc
    have hmem : c ∈ sortByDesc (fun c => pathScore c.pathLower (hintsFor s)) cs :=
      List.mem_of_mem_head? hc
    exact mem_sortByDesc _ c cs hmem

/-- Witness for the amended C2, at a singleton `none`-tagged list and a
`totals` request. -/
theorem pickBest_fallback_witness :
    (([⟨7, "foo/keys", "/foo/keys", Section.none⟩] : List Candidate).filter fun c =>
      match Sect2.totals with
      | .totals => decide (c.sectionTag = Section.totals)
      | .unpulsed => decide (c.sectionTag = Section.unpulsed)) = [] ∧
    pickBest [⟨7, "foo/keys", "/foo/keys", Section.none⟩] Sect2.totals =
      (sortByDesc (fun c => pathScore c.pathLower (hintsFor Sect2.totals))
        [⟨7, "foo/keys", "/foo/keys", Section.none⟩]).head? ∧
    (pickBest [⟨7, "foo/keys", "/foo/keys", Section.none⟩] Sect2.totals = Option.none ↔
      ([⟨7, "foo/keys", "/foo/keys", Section.none⟩] : List Candidate) = []) :=
  ⟨by decide,
    (pickBest_fallback [⟨7, "foo/keys", "/foo/keys", Section.none⟩] Sect2.totals (by decide)).1,
    (pickBest_fallback [⟨7, "foo/keys", "/foo/keys", Section.none⟩] Sect2.totals (by decide)).2.1⟩

end WhatPulse

namespace Weekly

/-- A run whose extraction succeeds rewrites the ledger file with the
appended array and emits the two-state output record. -/
theorem runWeekly_ok (api : WhatPulseJson) (t : String) (L : LedgerFile) (c : Counters)
    (h : getCounters api = Except.ok c) :
    runWeekly api t L =
      (LedgerFile.jsonArray (readLedger L ++ [(⟨t, SOURCE_TAG, c⟩ : Snapshot)]),
        Except.ok
          (if (readLedger L ++ [(⟨t, SOURCE_TAG, c⟩ : Snapshot)]).length < 2 then
            ⟨t, SOURCE_TAG, "weekly", Option.none, Option.none, some NO_HISTORY_NOTE⟩
          else
            ⟨t, SOURCE_TAG, "weekly",
              some (((readLedger L ++ [(⟨t, SOURCE_TAG, c⟩ : Snapshot)]).getD
                  ((readLedger L ++ [(⟨t, SOURCE_TAG, c⟩ : Snapshot)]).length - 2)
                  ⟨t, SOURCE_TAG, c⟩).capturedAt ++ "/" ++
                ((readLedger L ++ [(⟨t, SOURCE_TAG, c⟩ : Snapshot)]).getD
                  ((readLedger L ++ [(⟨t, SOURCE_TAG, c⟩ : Snapshot)]).length - 1)
                  ⟨t, SOURCE_TAG, c⟩).capturedAt),
              some (delta
                ((readLedger L ++ [(⟨t, SOURCE_TAG, c⟩ : Snapshot)]).getD
                  ((readLedger L ++ [(⟨t, SOURCE_TAG, c⟩ : Snapshot)]).length - 2)
                  ⟨t, SOURCE_TAG, c⟩).counters
                ((readLedger L ++ [(⟨t, SOURCE_TAG, c⟩ : Snapshot)]).getD
                  ((readLedger L ++ [(⟨t, SOURCE_TAG, c⟩ : Snapshot)]).length - 1)
                  ⟨t, SOURCE_TAG, c⟩).counters),
              Option.none⟩)) := by
  by_cases hlen : (readLedger L ++ [(⟨t, SOURCE_TAG, c⟩ : Snapshot)]).length < 2
  · simp only [runWeekly, weeklyMain, h, if_pos hlen]
  · simp only [runWeekly, weeklyMain, h, if_neg hlen]

/-- C4: every field of `delta prev current` equals
`max 0 (current - prev)` computed independently per field, is
non-negative, and is 0 whenever the current value dropped below the
previous one (counter reset). -/
theorem delta_spec (prev current : Counters) :
    ((delta prev current).keys = max 0 (current.keys - prev.keys) ∧
      (delta prev current).clicks = max 0 (current.clicks - prev.clicks) ∧
      (delta prev current).scrolls = max 0 (current.scrolls - prev.scrolls) ∧
      (delta prev current).uptimeSeconds = max 0 (current.uptimeSeconds - prev.uptimeSeconds)) ∧
    (0 ≤ (delta prev current).keys ∧ 0 ≤ (delta prev current).clicks ∧
      0 ≤ (delta prev current).scrolls ∧ 0 ≤ (delta prev current).uptimeSeconds) ∧
    ((current.keys < prev.keys → (delta prev current).keys = 0) ∧
      (current.clicks < prev.clicks → (delta prev current).clicks = 0) ∧
      (current.scrolls < prev.scrolls → (delta prev current).scrolls = 0) ∧
      (current.uptimeSeconds < prev.uptimeSeconds → (delta prev current).uptimeSeconds = 0)) := by
  refine ⟨⟨rfl, rfl, rfl, rfl⟩,
    ⟨le_max_left _ _, le_max_left _ _, le_max_left _ _, le_max_left _ _⟩,
    ?_, ?_, ?_, ?_⟩ <;>
    · intro h
      simp only [delta]
      exact max_eq_left (sub_nonpos.mpr h.le)

/-- Witness for C4: a keys reset from 500 to 10 yields a 0 delta. -/
theorem delta_spec_witness :
    (10 : Int) < 500 ∧ (delta ⟨500, 300, 10, 7200⟩ ⟨10, 300, 10, 7200⟩).keys = 0 :=
  ⟨by decide, (delta_spec ⟨500, 300, 10, 7200⟩ ⟨10, 300, 10, 7200⟩).2.2.1 (by decide)⟩

/-- C3: snapshot extraction prefers `unpulsed` and falls back to
`totals` when `unpulsed` is null; when neither section resolves to 4
non-null fields the run fails fatally before any ledger mutation, so
the ledger file is unchanged. -/
theorem weekly_extraction_guard :
    (∀ (api : WhatPulseJson) (u : PartialCounters), api.unpulsed = some u →
      getCounters api =
        (match resolve u with
          | some c => Except.ok c
          | Option.none => Except.error MISSING_MSG)) ∧
    (∀ (api : WhatPulseJson), api.unpulsed = Option.none →
      getCounters api =
        (match resolve (api.totals.getD emptyPartial) with
          | some c => Except.ok c
          | Option.none => Except.error MISSING_MSG)) ∧
    (∀ (api : WhatPulseJson) (t : String) (L : LedgerFile),
      resolve (api.totals.getD emptyPartial) = Option.none →
      (∀ u, api.unpulsed = some u → resolve u = Option.none) →
      runWeekly api t L = (L, Except.error MISSING_MSG)) := by
  refine ⟨?_, ?_, ?_⟩
  · intro api u hu
    simp [getCounters, hu]
  · intro api hu
    simp [getCounters, hu]
  · intro api t L hTot hUnp
    have hget : getCounters api = Except.error MISSING_MSG := by
      cases hau : api.unpulsed with
      | none => simp [getCounters, hau, hTot]
      | some u => simp [getCounters, hau, hUnp u hau]
    simp [runWeekly, weeklyMain, hget]

/-- Witness for C3: a report with all-null totals and null unpulsed
fails fatally and leaves the ledger file state unchanged. -/
theorem weekly_extraction_guard_witness :
    resolve ((⟨some ⟨JsVal.jnull, JsVal.jnull, JsVal.jnull, JsVal.jnull⟩,
        Option.none⟩ : WhatPulseJson).totals.getD emptyPartial) = Option.none ∧
    runWeekly ⟨some ⟨JsVal.jnull, JsVal.jnull, JsVal.jnull, JsVal.jnull⟩, Option.none⟩
        "2026-01-05T00:00:00.000Z" (LedgerFile.jsonArray []) =
      (LedgerFile.jsonArray [], Except.error MISSING_MSG) :=
  ⟨by decide,
    weekly_extraction_guard.2.2 _ _ _ (by decide) (fun u hu => Option.noConfusion hu)⟩

/-- C6: the ledger read treats a missing file, invalid JSON and
non-array JSON as the empty ledger rather than failing; a successful
run persists exactly the prior valid entries plus the new snapshot, so
the last element is the appended snapshot and the length grows by 1. -/
theorem ledger_append (api : WhatPulseJson) (t : String) (L : LedgerFile) (c : Counters)
    (h : getCounters api = Except.ok c) :
    (runWeekly api t L).1 =
      LedgerFile.jsonArray (readLedger L ++ [(⟨t, SOURCE_TAG, c⟩ : Snapshot)]) ∧
    (runWeekly api t L).2.isOk = true ∧
    (readLedger L ++ [(⟨t, SOURCE_TAG, c⟩ : Snapshot)]).getLast? = some ⟨t, SOURCE_TAG, c⟩ ∧
    (readLedger L ++ [(⟨t, SOURCE_TAG, c⟩ : Snapshot)]).length = (readLedger L).length + 1 ∧
    readLedger LedgerFile.missing = [] ∧ readLedger LedgerFile.invalidJson = [] ∧
    readLedger LedgerFile.jsonNonArray = [] := by
  have hr := runWeekly_ok api t L c h
  refine ⟨by rw [hr], by rw [hr]; rfl, by simp, by simp, rfl, rfl, rfl⟩

/-- Witness for C6: appending over a corrupt ledger file yields a
one-element ledger containing exactly the new snapshot. -/
theorem ledger_append_witness :
    getCounters ⟨Option.none, some ⟨JsVal.num 1, JsVal.num 2, JsVal.num 3, JsVal.num 4⟩⟩ =
      Except.ok ⟨1, 2, 3, 4⟩ ∧
    (runWeekly ⟨Option.none, some ⟨JsVal.num 1, JsVal.num 2, JsVal.num 3, JsVal.num 4⟩⟩
        "2026-01-05T00:00:00.000Z" LedgerFile.invalidJson).1 =
      LedgerFile.jsonArray
        (readLedger LedgerFile.invalidJson ++
          [(⟨"2026-01-05T00:00:00.000Z", SOURCE_TAG, ⟨1, 2, 3, 4⟩⟩ : Snapshot)]) ∧
    (runWeekly ⟨Option.none, some ⟨JsVal.num 1, JsVal.num 2, JsVal.num 3, JsVal.num 4⟩⟩
        "2026-01-05T00:00:00.000Z" LedgerFile.invalidJson).2.isOk = true :=
  ⟨rfl,
    (ledger_append ⟨Option.none, some ⟨JsVal.num 1, JsVal.num 2, JsVal.num 3, JsVal.num 4⟩⟩
      "2026-01-05T00:00:00.000Z" LedgerFile.invalidJson ⟨1, 2, 3, 4⟩ rfl).1,
    (ledger_append ⟨Option.none, some ⟨JsVal.num 1, JsVal.num 2, JsVal.num 3, JsVal.num 4⟩⟩
      "2026-01-05T00:00:00.000Z" LedgerFile.invalidJson ⟨1, 2, 3, 4⟩ rfl).2.1⟩

/-- C5: the emitted weekly record is a two-state function of the
post-append ledger length: below 2 it is `{range: null, counters: null,
note: non-null}`; at 2 or more it is the range of the two most recent
entries with non-null counters and a null note; exactly one of
`{range, counters}` or `{note}` is populated. -/
theorem weekly_state_machine (api : WhatPulseJson) (t : String) (L : LedgerFile)
    (c : Counters) (w : WeeklyOutput)
    (h : getCounters api = Except.ok c)
    (hw : (runWeekly api t L).2 = Except.ok w) :
    ((readLedger L ++ [(⟨t, SOURCE_TAG, c⟩ : Snapshot)]).length < 2 →
      w.range = Option.none ∧ w.counters = Option.none ∧ w.note = some NO_HISTORY_NOTE) ∧
    (2 ≤ (readLedger L ++ [(⟨t, SOURCE_TAG, c⟩ : Snapshot)]).length →
      w.range = some (((readLedger L ++ [(⟨t, SOURCE_TAG, c⟩ : Snapshot)]).getD
          ((readLedger L ++ [(⟨t, SOURCE_TAG, c⟩ : Snapshot)]).length - 2)
          ⟨t, SOURCE_TAG, c⟩).capturedAt ++ "/" ++
        ((readLedger L ++ [(⟨t, SOURCE_TAG, c⟩ : Snapshot)]).getD
          ((readLedger L ++ [(⟨t, SOURCE_TAG, c⟩ : Snapshot)]).length - 1)
          ⟨t, SOURCE_TAG, c⟩).capturedAt) ∧
      w.counters ≠ Option.none ∧ w.note = Option.none) ∧
    ((w.range ≠ Option.none ∧ w.counters ≠ Option.none ∧ w.note = Option.none) ∨
      (w.range = Option.none ∧ w.counters = Option.none ∧ w.note ≠ Option.none)) := by
  rw [runWeekly_ok api t L c h] at hw
  by_cases hlen : (readLedger L ++ [(⟨t, SOURCE_TAG, c⟩ : Snapshot)]).length < 2
  · rw [if_pos hlen] at hw
    obtain rfl := (Except.ok.inj hw).symm
    refine ⟨fun _ => ⟨rfl, rfl, rfl⟩, fun h2 => absurd hlen (by omega), Or.inr ⟨rfl, rfl, by simp⟩⟩
  · rw [if_neg hlen] at hw
    obtain rfl := (Except.ok.inj hw).symm
    exact ⟨fun hlt => absurd hlt hlen, fun _ => ⟨rfl, by simp, rfl⟩, Or.inl ⟨by simp, by simp, rfl⟩⟩

/-- Witness for C5, at a one-entry prior ledger (so a post-append
length of 2): the emitted record carries the range of the two entries,
the delta counters, and a null note. -/
theorem weekly_state_machine_witness :
    getCounters ⟨Option.none, some ⟨JsVal.num 1, JsVal.num 2, JsVal.num 3, JsVal.num 4⟩⟩ =
      Except.ok ⟨1, 2, 3, 4⟩ ∧
    (runWeekly ⟨Option.none, some ⟨JsVal.num 1, JsVal.num 2, JsVal.num 3, JsVal.num 4⟩⟩
        "2026-01-12T00:00:00.000Z"
        (LedgerFile.jsonArray [⟨"2026-01-05T00:00:00.000Z", SOURCE_TAG, ⟨0, 0, 0, 0⟩⟩])).2 =
      Except.ok ⟨"2026-01-12T00:00:00.000Z", SOURCE_TAG, "weekly",
        some "2026-01-05T00:00:00.000Z/2026-01-12T00:00:00.000Z",
        some ⟨1, 2, 3, 4⟩, Option.none⟩ ∧
    (⟨"2026-01-12T00:00:00.000Z", SOURCE_TAG, "weekly",
        some "2026-01-05T00:00:00.000Z/2026-01-12T00:00:00.000Z",
        some ⟨1, 2, 3, 4⟩, Option.none⟩ : WeeklyOutput).range =
      some "2026-01-05T00:00:00.000Z/2026-01-12T00:00:00.000Z" ∧
    (⟨"2026-01-12T00:00:00.000Z", SOURCE_TAG, "weekly",
        some "2026-01-05T00:00:00.000Z/2026-01-12T00:00:00.000Z",
        some ⟨1, 2, 3, 4⟩, Option.none⟩ : WeeklyOutput).counters ≠ Option.none ∧
    (⟨"2026-01-12T00:00:00.000Z", SOURCE_TAG, "weekly",
        some "2026-01-05T00:00:00.000Z/2026-01-12T00:00:00.000Z",
        some ⟨1, 2, 3, 4⟩, Option.none⟩ : WeeklyOutput).note = Option.none := by
  have hmain := (weekly_state_machine
    ⟨Option.none, some ⟨JsVal.num 1, JsVal.num 2, JsVal.num 3, JsVal.num 4⟩⟩
    "2026-01-12T00:00:00.000Z"
    (LedgerFile.jsonArray [⟨"2026-01-05T00:00:00.000Z", SOURCE_TAG, ⟨0, 0, 0, 0⟩⟩])
    ⟨1, 2, 3, 4⟩
    ⟨"2026-01-12T00:00:00.000Z", SOURCE_TAG, "weekly",
      some "2026-01-05T00:00:00.000Z/2026-01-12T00:00:00.000Z",
      some ⟨1, 2, 3, 4⟩, Option.none⟩ rfl rfl).2.1 (by decide)
  exact ⟨rfl, rfl, hmain.1, hmain.2.1, hmain.2.2⟩

/-- C9 amended: the fetcher's error snippet is bounded by 203
characters (200 kept characters plus a 3-character ellipsis), not by
200 as claimed. -/
theorem safeSnippet_bounded (text : String) : (safeSnippet text 200).length ≤ 203 := by
  have hdef : safeSnippet text 200 =
      if (jsTrim text).length ≤ 200 then jsTrim text
      else String.mk ((jsTrim text).data.take 200) ++ "..." := rfl
  rw [hdef]
  split
  · omega
  · have h1 : (String.mk ((jsTrim text).data.take 200)).length ≤ 200 :=
      List.length_take_le 200 (jsTrim text).data
    have h2 : (String.mk ((jsTrim text).data.take 200) ++ "...").length =
        (String.mk ((jsTrim text).data.take 200)).length + 3 := by
      rw [String.length_append]
      rfl
    omega

set_option maxRecDepth 10000 in
/-- C9 counterexample: a 201-character body yields a 203-character
snippet, exceeding the claimed 200-character bound. -/
theorem safeSnippet_claim_cex :
    200 < (safeSnippet (String.mk (List.replicate 201 'a')) 200).length := by
  decide

end Weekly
